import Mathlib

/-!
Shallow embedding of the nexus team-selector application core: the
multi-pass Fisher-Yates shuffle (`utils/shuffle.ts`), the flow-controller
handlers of `App.tsx` (start naming, bulk import, team generation, reset)
and the identity-naming service (`services/geminiService.ts`).

Randomness (`crypto.getRandomValues`) and the random player-id generator
(`Math.random`-based) are modelled as oracle streams passed explicitly;
the 32-bit random draw is a `Nat` reduced modulo `2^32`.  All functions
are pure, mirroring the source's value-level behaviour.
-/

namespace Nexus

/-- The `Player` record from `types.ts`. -/
structure Player where
  id : String
  name : String
deriving DecidableEq

/-- The `Team` record from `types.ts`. -/
structure Team where
  id : Nat
  name : String
  slogan : String
  players : List Player
deriving DecidableEq

/-- The `GeneratorConfig` record from `types.ts`. -/
structure GeneratorConfig where
  playersPerTeam : Nat
  numberOfTeams : Nat
deriving DecidableEq

/-- The `step` UI state of `App.tsx`: `'config' | 'players' | 'results'`. -/
inductive Step where
  | config
  | players
  | results
deriving DecidableEq

/-- The mutable state of the `App` component that the claims concern:
`step`, `players`, `teams`, `error` and the `isGenerating` flag. -/
structure AppState where
  step : Step
  players : List Player
  teams : List Team
  error : Option String
  isGenerating : Bool
deriving DecidableEq

/-- Swap the elements at positions `i` and `j`, as the destructuring
assignment `[result[i], result[j]] = [result[j], result[i]]` does.  When
either index is out of range the list is returned unchanged (the source
only ever calls it with in-range indices). -/
def listSwap (l : List α) (i j : Nat) : List α :=
  match l[i]?, l[j]? with
  | some a, some b => (l.set i b).set j a
  | _, _ => l

/-- The inner loop of `aggressiveShuffle` (one Fisher-Yates pass), running
the index `i` from its current value down to `1`.  `rnd` is the stream of
`Uint32` draws produced by `crypto.getRandomValues` and `k` the number of
draws consumed so far.  The draw `r` yields
`j = floor((r / 2^32) * (i+1)) = r * (i+1) / 2^32` (exact integer
arithmetic; the float computation in the source is exact for all
realistic array sizes). -/
def fyAux (rnd : Nat → Nat) : List α → Nat → Nat → List α × Nat
  | l, 0, k => (l, k)
  | l, i + 1, k =>
      let r := rnd k % 4294967296
      let j := r * (i + 2) / 4294967296
      fyAux rnd (listSwap l (i + 1) j) i (k + 1)

/-- The outer loop of `aggressiveShuffle`: `passes` Fisher-Yates passes,
threading the draw counter.  Each pass starts at `length - 1`; the length
is that of the current list, which the swaps never change. -/
def fyPasses (rnd : Nat → Nat) : List α → Nat → Nat → List α × Nat
  | l, 0, k => (l, k)
  | l, p + 1, k =>
      fyPasses rnd (fyAux rnd l (l.length - 1) k).1 p (fyAux rnd l (l.length - 1) k).2

/-- `aggressiveShuffle` from `utils/shuffle.ts`: copy the input and run
`passes` Fisher-Yates passes over it with cryptographically random draws
(the oracle `rnd`). -/
def aggressiveShuffle (rnd : Nat → Nat) (array : List α) (passes : Nat) : List α :=
  (fyPasses rnd array passes 0).1

/-- JavaScript `String.prototype.trim` on the character list of a string:
drop whitespace from both ends. -/
def jsTrim (cs : List Char) : List Char :=
  ((cs.dropWhile Char.isWhitespace).reverse.dropWhile Char.isWhitespace).reverse

/-- A separator character of the bulk-import split regex `[,\n\r;]+`. -/
def isSepChar (c : Char) : Bool :=
  c == ',' || c == '\n' || c == '\r' || c == ';'

/-- Split on single separator characters, accumulating the current token.
The source splits on runs (`[,\n\r;]+`); splitting on single characters
instead produces extra empty tokens inside a run, which the subsequent
`length > 0` filter removes, so both pipelines yield the same name list. -/
def splitSepsAux : List Char → List Char → List (List Char)
  | [], acc => [acc.reverse]
  | c :: cs, acc =>
      if isSepChar c then acc.reverse :: splitSepsAux cs []
      else splitSepsAux cs (c :: acc)

def splitSeps (cs : List Char) : List (List Char) := splitSepsAux cs []

/-- The name pipeline of `handleCsvUpload`:
`text.split(/[,\n\r;]+/).map(n => n.trim()).filter(n => n.length > 0)`. -/
def parseNames (text : List Char) : List String :=
  (((splitSeps text).map jsTrim).filter (fun n => decide (0 < n.length))).map List.asString

/-- The assignment loop `names.forEach((name, index) => { if (index <
newPlayers.length) newPlayers[index].name = name })`: player slot `i`
receives the `i`-th imported name; slots beyond the imported names are
untouched and names beyond the slots are discarded. -/
def assignNames : List Player → List String → List Player
  | [], _ => []
  | ps, [] => ps
  | p :: ps, n :: ns => { p with name := n } :: assignNames ps ns

/-- The memoised `totalRequired = config.playersPerTeam * config.numberOfTeams`. -/
def totalRequired (cfg : GeneratorConfig) : Nat :=
  cfg.playersPerTeam * cfg.numberOfTeams

/-- The "Proceed to Names" button has `disabled = (totalRequired < 2)`, so
the Configuring to Naming-Players transition is enabled iff the negation. -/
def proceedToNamesEnabled (cfg : GeneratorConfig) : Bool :=
  !(decide (totalRequired cfg < 2))

/-- `handleStartNaming`: allocate `totalRequired` players with blank names
and ids drawn from the id oracle (`Math.random().toString(36).substr(2, 9)`
in the source), then `step := 'players'`. -/
def handleStartNaming (idGen : Nat → String) (cfg : GeneratorConfig) (st : AppState) : AppState :=
  { st with
    players := (List.range (totalRequired cfg)).map (fun i => { id := idGen i, name := "" }),
    step := Step.players }

/-- `handleCsvUpload` once the file text has been read: parse the names,
assign them positionally, and set the informational message when fewer
names than `totalRequired` were imported (otherwise clear the error). -/
def handleCsvUpload (cfg : GeneratorConfig) (st : AppState) (text : List Char) : AppState :=
  let names := parseNames text
  { st with
    players := assignNames st.players names,
    error :=
      if names.length < totalRequired cfg then
        some ("Imported " ++ Nat.repr names.length ++ " names. Filled remaining slots with blanks.")
      else none }

/-- A player name is blank when `!p.name.trim()` is truthy, i.e. the
trimmed name is empty. -/
def blankName (p : Player) : Bool := (jsTrim p.name.data).isEmpty

/-- The team-building loop of `handleGenerateTeams`: for `i` in
`0..numberOfTeams-1` push `{ id: i, name: Team i+1, slogan: 'Shuffling
the deck...', players: shuffled.slice(start, start + playersPerTeam) }`. -/
def buildTeams (shuffled : List Player) (cfg : GeneratorConfig) : List Team :=
  (List.range cfg.numberOfTeams).map fun i =>
    { id := i,
      name := "Team " ++ Nat.repr (i + 1),
      slogan := "Shuffling the deck...",
      players := (shuffled.drop (i * cfg.playersPerTeam)).take cfg.playersPerTeam }

/-- The synchronous part of `handleGenerateTeams`: validate names, shuffle
the roster with 10 passes, partition it, and display (`step := 'results'`).
At this point the asynchronous identity request has not resolved yet and
`isGenerating` is still `true`. -/
def handleGenerateTeamsSync (rnd : Nat → Nat) (cfg : GeneratorConfig) (st : AppState) : AppState :=
  if st.players.any blankName then
    { st with error := some "Please provide names for all players." }
  else
    { st with
      error := none,
      isGenerating := true,
      teams := buildTeams (aggressiveShuffle rnd st.players 10) cfg,
      step := Step.results }

/-- The `{ name, slogan }` objects produced by the identity-naming
service. -/
structure Identity where
  name : String
  slogan : String
deriving DecidableEq

/-- The possible outcomes of the Gemini call inside
`generateTeamIdentities`: the request rejects, `response.text` is
empty/undefined (triggering the explicit throw), `JSON.parse` throws on
unparsable text, or a parsed identity list is returned. -/
inductive NamingOutcome where
  | throwsErr
  | emptyText
  | unparsable
  | parsed (ids : List Identity)
deriving DecidableEq

/-- The fallback `teams.map((_, i) => ({ name: Squad i+1, slogan: "Ready
for action!" }))`, with the running index threaded explicitly. -/
def fallbackFrom : Nat → List Team → List Identity
  | _, [] => []
  | i, _ :: ts =>
      { name := "Squad " ++ Nat.repr (i + 1), slogan := "Ready for action!" }
        :: fallbackFrom (i + 1) ts

def fallbackIdentities (teams : List Team) : List Identity := fallbackFrom 0 teams

/-- `generateTeamIdentities` from `services/geminiService.ts`: the try
block returns the parsed response; every failure path (request rejection,
empty response text, `JSON.parse` error) lands in the catch, which
returns the deterministic fallback identities. -/
def generateTeamIdentities (outcome : NamingOutcome) (teams : List Team) : List Identity :=
  match outcome with
  | NamingOutcome.parsed ids => ids
  | _ => fallbackIdentities teams

/-- The patch expression `identities[idx]?.name || t.name`: an absent
entry or a falsy (empty) string keeps the old value. -/
def patchField (newVal : Option String) (old : String) : String :=
  match newVal with
  | some s => if s = "" then old else s
  | none => old

/-- The reconciliation `prev.map((t, idx) => ({ ...t, name:
identities[idx]?.name || t.name, slogan: identities[idx]?.slogan ||
t.slogan }))`, with the map index threaded explicitly. -/
def applyIdentitiesFrom (ids : List Identity) : Nat → List Team → List Team
  | _, [] => []
  | i, t :: ts =>
      { t with
        name := patchField ((ids[i]?).map Identity.name) t.name,
        slogan := patchField ((ids[i]?).map Identity.slogan) t.slogan }
        :: applyIdentitiesFrom ids (i + 1) ts

def applyIdentities (ids : List Identity) (teams : List Team) : List Team :=
  applyIdentitiesFrom ids 0 teams

/-- The identity-resolution step of `handleGenerateTeams`: await the
service result for the given teams and patch it onto a team list. -/
def resolveIdentities (outcome : NamingOutcome) (teams : List Team) : List Team :=
  applyIdentities (generateTeamIdentities outcome teams) teams

/-- `handleGenerateTeams` run to completion: the await resolved with
`outcome` against the freshly built teams and the finally clause cleared
`isGenerating`.  `generateTeamIdentities` is total (its catch swallows
every failure), so the catch branch that would set "An error occurred
during generation." is never taken. -/
def handleGenerateTeamsFull (rnd : Nat → Nat) (outcome : NamingOutcome)
    (cfg : GeneratorConfig) (st : AppState) : AppState :=
  if st.players.any blankName then
    { st with error := some "Please provide names for all players." }
  else
    { st with
      error := none,
      isGenerating := false,
      teams := resolveIdentities outcome (buildTeams (aggressiveShuffle rnd st.players 10) cfg),
      step := Step.results }

/-- `handleReset`: step `'config'`, players `[]`, teams `[]`, error
`null`. -/
def handleReset (st : AppState) : AppState :=
  { st with step := Step.config, players := [], teams := [], error := none }

/-- An outstanding identity request: the team list in effect when it was
issued, and the identity list its resolution will deliver. -/
structure PendingReq where
  issuedTeams : List Team
  resp : List Identity
deriving DecidableEq

/-- The teams state together with its outstanding identity requests, for
reasoning about the asynchronous reconciliation ordering. -/
structure GenSystem where
  teams : List Team
  pending : List PendingReq
deriving DecidableEq

/-- User and scheduler actions: a generation or reshuffle (replaces the
teams and issues an identity request), the resolution of the oldest
outstanding request, and a reset. -/
inductive SysAction where
  | generate (newTeams : List Team) (resp : List Identity)
  | resolveNext
  | reset
deriving DecidableEq

/-- One step of the App as written: `generate` performs the synchronous
part of `handleGenerateTeams` (`setTeams(newTeams)`) and issues the
request; `resolveNext` performs `setTeams(prev => prev.map(..patch..))`
where `prev` is whatever team list is current at resolution time; `reset`
performs `handleReset`'s `setTeams([])` (outstanding requests are not
cancelled). -/
def runAction (s : GenSystem) : SysAction → GenSystem
  | SysAction.generate newTeams resp =>
      { teams := newTeams,
        pending := s.pending ++ [{ issuedTeams := newTeams, resp := resp }] }
  | SysAction.resolveNext =>
      match s.pending with
      | [] => s
      | q :: rest => { teams := applyIdentities q.resp s.teams, pending := rest }
  | SysAction.reset => { teams := [], pending := s.pending }

def runActions (s : GenSystem) (acts : List SysAction) : GenSystem :=
  acts.foldl runAction s

/-- Claim C4 as a proposition about the step system: resolving an
outstanding request whose issuing team list differs from the current one
never changes the current teams. -/
def staleResponseNeverOverwrites : Prop :=
  ∀ (s : GenSystem) (q : PendingReq) (rest : List PendingReq),
    s.pending = q :: rest → q.issuedTeams ≠ s.teams →
    (runAction s SysAction.resolveNext).teams = s.teams

/-- A concrete configuration used by concrete-instance theorems. -/
def cfgW : GeneratorConfig := { playersPerTeam := 1, numberOfTeams := 2 }

/-- A concrete fully named roster state fitting `cfgW`. -/
def stW : AppState :=
  { step := Step.players,
    players := [{ id := "a", name := "A" }, { id := "b", name := "B" }],
    teams := [],
    error := none,
    isGenerating := false }

/-- A concrete state whose first player name is whitespace-only. -/
def stBlankW : AppState :=
  { step := Step.players,
    players := [{ id := "a", name := " " }, { id := "b", name := "B" }],
    teams := [],
    error := none,
    isGenerating := false }

/-- A concrete configuration requiring four players. -/
def cfg4W : GeneratorConfig := { playersPerTeam := 2, numberOfTeams := 2 }

/-- A concrete four-slot blank roster state fitting `cfg4W`. -/
def st4W : AppState :=
  { step := Step.players,
    players := [{ id := "a", name := "" }, { id := "b", name := "" },
      { id := "c", name := "" }, { id := "d", name := "" }],
    teams := [],
    error := none,
    isGenerating := false }

/-- A constant random stream for concrete-instance theorems. -/
def rndW : Nat → Nat := fun _ => 0

/-- A decimal id oracle for concrete-instance theorems. -/
def idGenW : Nat → String := fun n => Nat.repr n

/-- Three placeholder teams for the naming-fallback concrete instance. -/
def teams3W : List Team :=
  [{ id := 0, name := "Team 1", slogan := "Shuffling the deck...", players := [] },
   { id := 1, name := "Team 2", slogan := "Shuffling the deck...", players := [] },
   { id := 2, name := "Team 3", slogan := "Shuffling the deck...", players := [] }]

/-- An identity response whose fields are empty strings. -/
def idsEmptyW : List Identity := [{ name := "", slogan := "" }]

/-- A single placeholder team for the empty-field patch instance. -/
def teamsPatchW : List Team :=
  [{ id := 0, name := "Team 1", slogan := "Shuffling the deck...", players := [] }]

/-- The single team of a first generation, for the reconciliation race. -/
def teamA : Team :=
  { id := 0, name := "Team 1", slogan := "Shuffling the deck...",
    players := [{ id := "p1", name := "Alice" }] }

/-- The single team of a second generation (a reshuffle), for the
reconciliation race. -/
def teamB : Team :=
  { id := 0, name := "Team 1", slogan := "Shuffling the deck...",
    players := [{ id := "p2", name := "Bob" }] }

/-- The identity response of the first (stale) request. -/
def respStale : List Identity := [{ name := "Alpha", slogan := "Go!" }]

/-- The identity response of the second request. -/
def respFresh : List Identity := [{ name := "Beta", slogan := "Run!" }]

/-- The system state after a generation followed by a reshuffle, with both
identity requests still outstanding. -/
def raceState : GenSystem :=
  runActions { teams := [], pending := [] }
    [SysAction.generate [teamA] respStale, SysAction.generate [teamB] respFresh]

/-- Setting index `m` (which holds `b`) to `x` and consing `b` in front is
a permutation of consing `x` in front. -/
theorem cons_set_perm (x : α) : ∀ (t : List α) (m : Nat) (b : α), t[m]? = some b →
    (b :: t.set m x).Perm (x :: t) := by
  intro t
  induction t with
  | nil => intro m b h; simp at h
  | cons y t' ih =>
    intro m b h
    cases m with
    | zero =>
      simp at h
      subst h
      exact List.Perm.swap x y t'
    | succ k =>
      simp at h
      exact ((List.Perm.swap y b _).trans ((ih k b h).cons y)).trans (List.Perm.swap x y t')

/-- The double `set` performing a swap of in-range positions is a
permutation. -/
theorem set_set_perm : ∀ (l : List α) (i j : Nat) (a b : α),
    l[i]? = some a → l[j]? = some b → ((l.set i b).set j a).Perm l := by
  intro l
  induction l with
  | nil => intro i j a b h1 _; simp at h1
  | cons x t ih =>
    intro i j a b h1 h2
    cases i with
    | zero =>
      cases j with
      | zero =>
        simp at h1 h2
        subst h1; subst h2
        exact List.Perm.refl _
      | succ m =>
        simp at h1 h2
        subst h1
        exact cons_set_perm x t m b h2
    | succ n =>
      cases j with
      | zero =>
        simp at h1 h2
        subst h2
        exact cons_set_perm x t n a h1
      | succ m =>
        simp at h1 h2
        exact (ih n m a b h1 h2).cons x

/-- `listSwap` always produces a permutation of its input. -/
theorem listSwap_perm (l : List α) (i j : Nat) : (listSwap l i j).Perm l := by
  unfold listSwap
  split
  · exact set_set_perm l i j _ _ (by assumption) (by assumption)
  · exact List.Perm.refl l

/-- Each Fisher-Yates inner loop yields a permutation of its input. -/
theorem fyAux_perm (rnd : Nat → Nat) : ∀ (i : Nat) (l : List α) (k : Nat),
    ((fyAux rnd l i k).1).Perm l := by
  intro i
  induction i with
  | zero => intro l k; exact List.Perm.refl l
  | succ n ih =>
    intro l k
    exact (ih _ _).trans (listSwap_perm l (n + 1) _)

/-- Any number of passes yields a permutation of the input. -/
theorem fyPasses_perm (rnd : Nat → Nat) : ∀ (p : Nat) (l : List α) (k : Nat),
    ((fyPasses rnd l p k).1).Perm l := by
  intro p
  induction p with
  | zero => intro l k; exact List.Perm.refl l
  | succ n ih => intro l k; exact (ih _ _).trans (fyAux_perm rnd _ l k)

/-- `aggressiveShuffle` permutes its input, for every random stream and
pass count. -/
theorem shuffle_perm (rnd : Nat → Nat) (l : List α) (passes : Nat) :
    (aggressiveShuffle rnd l passes).Perm l :=
  fyPasses_perm rnd passes l 0

/-- Concatenating the `n` contiguous chunks of size `p` of a list of
length `n * p` reproduces the list. -/
theorem flatten_chunks (p : Nat) : ∀ (n : Nat) (l : List α), l.length = n * p →
    ((List.range n).map (fun i => (l.drop (i * p)).take p)).flatten = l := by
  intro n
  induction n with
  | zero =>
    intro l h
    simp at h
    simp [h]
  | succ n ih =>
    intro l h
    rw [List.range_succ_eq_map, List.map_cons, List.flatten_cons, List.map_map]
    have hmap : (List.range n).map ((fun i => (l.drop (i * p)).take p) ∘ Nat.succ)
        = (List.range n).map (fun i => (((l.drop p).drop (i * p)).take p)) := by
      apply List.map_congr_left
      intro i _
      simp only [Function.comp]
      rw [List.drop_drop, Nat.succ_mul, Nat.add_comm]
    rw [hmap]
    have hlen' : (l.drop p).length = n * p := by
      rw [List.length_drop, h, Nat.succ_mul, Nat.add_sub_cancel]
    rw [ih (l.drop p) hlen']
    simp [List.take_append_drop]

/-- A chunk `drop (i*p) |> take p` of a list of length `n * p` has length
exactly `p` when `i < n`. -/
theorem chunk_length (l : List α) (p n i : Nat) (hl : l.length = n * p) (hi : i < n) :
    ((l.drop (i * p)).take p).length = p := by
  rw [List.length_take, List.length_drop, hl]
  have h1 : p + i * p ≤ n * p := by
    rw [Nat.add_comm, ← Nat.succ_mul]
    exact Nat.mul_le_mul_right p hi
  exact Nat.min_eq_left (Nat.le_sub_of_add_le h1)

/-- `buildTeams` produces one team per index of `range numberOfTeams`. -/
theorem buildTeams_length (shuffled : List Player) (cfg : GeneratorConfig) :
    (buildTeams shuffled cfg).length = cfg.numberOfTeams := by
  simp [buildTeams]

/-- The team at index `i` of `buildTeams`. -/
theorem buildTeams_get (shuffled : List Player) (cfg : GeneratorConfig) (i : Nat)
    (hi : i < cfg.numberOfTeams) :
    (buildTeams shuffled cfg)[i]? =
      some { id := i, name := "Team " ++ Nat.repr (i + 1),
             slogan := "Shuffling the deck...",
             players := (shuffled.drop (i * cfg.playersPerTeam)).take cfg.playersPerTeam } := by
  unfold buildTeams
  rw [List.getElem?_map, List.getElem?_range hi]
  rfl

/-- Claim C1: for every input sequence and every pass count `passes ≥ 0`,
`aggressiveShuffle` returns a permutation of the input: it contains
exactly the same multiset of elements, with no element duplicated and
none lost. -/
theorem C1_shuffle_is_permutation (rnd : Nat → Nat) (l : List α) (passes : Nat) :
    (aggressiveShuffle rnd l passes).Perm l ∧
    ((aggressiveShuffle rnd l passes : Multiset α) = (l : Multiset α)) :=
  ⟨shuffle_perm rnd l passes, Multiset.coe_eq_coe.mpr (shuffle_perm rnd l passes)⟩

/-- Claim C8: `aggressiveShuffle` is a pure function of its arguments (the
embedding of `const result = [...array]`, which never writes through the
input reference), and with `passes = 0` the returned sequence is equal in
order to the input. -/
theorem C8_shuffle_zero_passes_is_identity (rnd : Nat → Nat) (l : List α) :
    aggressiveShuffle rnd l 0 = l := rfl

/-- Claim C2: for a valid configuration (`playersPerTeam ≥ 1`,
`numberOfTeams ≥ 2`) and a fully named roster of exactly
`playersPerTeam * numberOfTeams` players, `handleGenerateTeams` shuffles
the roster with pass count 10 and produces exactly `numberOfTeams` teams
of exactly `playersPerTeam` players each, with ids `0..numberOfTeams-1`,
placeholder name `"Team {id+1}"` and slogan `"Shuffling the deck..."`,
such that concatenating the teams' player lists in id order reproduces
exactly the shuffled roster (hence no player is duplicated, lost, or in
two teams). -/
theorem C2_generation_partitions_shuffled_roster (rnd : Nat → Nat)
    (cfg : GeneratorConfig) (st : AppState)
    (hppt : 1 ≤ cfg.playersPerTeam) (hnt : 2 ≤ cfg.numberOfTeams)
    (hlen : st.players.length = cfg.playersPerTeam * cfg.numberOfTeams)
    (hnames : st.players.any blankName = false) :
    (handleGenerateTeamsSync rnd cfg st).teams.length = cfg.numberOfTeams ∧
    (∀ i, i < cfg.numberOfTeams →
      ((handleGenerateTeamsSync rnd cfg st).teams[i]?).map Team.id = some i ∧
      ((handleGenerateTeamsSync rnd cfg st).teams[i]?).map Team.name
        = some ("Team " ++ Nat.repr (i + 1)) ∧
      ((handleGenerateTeamsSync rnd cfg st).teams[i]?).map Team.slogan
        = some "Shuffling the deck..." ∧
      ((handleGenerateTeamsSync rnd cfg st).teams[i]?).map (fun t => t.players.length)
        = some cfg.playersPerTeam) ∧
    ((handleGenerateTeamsSync rnd cfg st).teams.map Team.players).flatten
      = aggressiveShuffle rnd st.players 10 ∧
    (aggressiveShuffle rnd st.players 10).Perm st.players ∧
    (handleGenerateTeamsSync rnd cfg st).step = Step.results ∧
    (handleGenerateTeamsSync rnd cfg st).players = st.players ∧
    (handleGenerateTeamsSync rnd cfg st).error = none := by
  have hst : handleGenerateTeamsSync rnd cfg st =
      { st with
        error := none,
        isGenerating := true,
        teams := buildTeams (aggressiveShuffle rnd st.players 10) cfg,
        step := Step.results } := by
    unfold handleGenerateTeamsSync
    rw [hnames]
    simp
  have hshuflen : (aggressiveShuffle rnd st.players 10).length
      = cfg.numberOfTeams * cfg.playersPerTeam := by
    rw [(shuffle_perm rnd st.players 10).length_eq, hlen, Nat.mul_comm]
  refine ⟨?_, ?_, ?_, shuffle_perm rnd st.players 10, ?_, ?_, ?_⟩
  · rw [hst]; exact buildTeams_length _ _
  · intro i hi
    rw [hst]
    simp only
    rw [buildTeams_get _ _ i hi]
    refine ⟨rfl, rfl, rfl, ?_⟩
    exact congrArg some (chunk_length _ _ _ _ hshuflen hi)
  · rw [hst]
    simp only
    unfold buildTeams
    rw [List.map_map]
    have : (Team.players ∘ fun i =>
        ({ id := i, name := "Team " ++ Nat.repr (i + 1),
           slogan := "Shuffling the deck...",
           players := ((aggressiveShuffle rnd st.players 10).drop
             (i * cfg.playersPerTeam)).take cfg.playersPerTeam } : Team))
        = fun i => (((aggressiveShuffle rnd st.players 10).drop
             (i * cfg.playersPerTeam)).take cfg.playersPerTeam) := rfl
    rw [this]
    exact flatten_chunks cfg.playersPerTeam cfg.numberOfTeams _ hshuflen
  · rw [hst]
  · rw [hst]
  · rw [hst]

/-- Witness for C2 at a concrete configuration, roster and random
stream. -/
theorem C2_generation_partitions_shuffled_roster_witness :
    (1 ≤ cfgW.playersPerTeam ∧ 2 ≤ cfgW.numberOfTeams ∧
      stW.players.length = cfgW.playersPerTeam * cfgW.numberOfTeams ∧
      stW.players.any blankName = false) ∧
    ((handleGenerateTeamsSync rndW cfgW stW).teams.length = cfgW.numberOfTeams ∧
      (∀ i, i < cfgW.numberOfTeams →
        ((handleGenerateTeamsSync rndW cfgW stW).teams[i]?).map Team.id = some i ∧
        ((handleGenerateTeamsSync rndW cfgW stW).teams[i]?).map Team.name
          = some ("Team " ++ Nat.repr (i + 1)) ∧
        ((handleGenerateTeamsSync rndW cfgW stW).teams[i]?).map Team.slogan
          = some "Shuffling the deck..." ∧
        ((handleGenerateTeamsSync rndW cfgW stW).teams[i]?).map (fun t => t.players.length)
          = some cfgW.playersPerTeam) ∧
      ((handleGenerateTeamsSync rndW cfgW stW).teams.map Team.players).flatten
        = aggressiveShuffle rndW stW.players 10 ∧
      (aggressiveShuffle rndW stW.players 10).Perm stW.players ∧
      (handleGenerateTeamsSync rndW cfgW stW).step = Step.results ∧
      (handleGenerateTeamsSync rndW cfgW stW).players = stW.players ∧
      (handleGenerateTeamsSync rndW cfgW stW).error = none) :=
  ⟨⟨by decide, by decide, by decide, by decide⟩,
   C2_generation_partitions_shuffled_roster rndW cfgW stW (by decide) (by decide)
     (by decide) (by decide)⟩

/-- Claim C6: if some player name is blank after trimming when generation
is triggered, the validation error is surfaced and no state transition
occurs: the step, players and teams are exactly as before, both at display
time and after the flow would have completed (the handler early-returns
before shuffling). -/
theorem C6_blank_name_blocks_generation (rnd : Nat → Nat) (outcome : NamingOutcome)
    (cfg : GeneratorConfig) (st : AppState)
    (hblank : st.players.any blankName = true) :
    handleGenerateTeamsSync rnd cfg st
      = { st with error := some "Please provide names for all players." } ∧
    handleGenerateTeamsFull rnd outcome cfg st
      = { st with error := some "Please provide names for all players." } ∧
    (handleGenerateTeamsSync rnd cfg st).step = st.step ∧
    (handleGenerateTeamsSync rnd cfg st).players = st.players ∧
    (handleGenerateTeamsSync rnd cfg st).teams = st.teams := by
  have h1 : handleGenerateTeamsSync rnd cfg st
      = { st with error := some "Please provide names for all players." } := by
    unfold handleGenerateTeamsSync
    rw [hblank]
    simp
  have h2 : handleGenerateTeamsFull rnd outcome cfg st
      = { st with error := some "Please provide names for all players." } := by
    unfold handleGenerateTeamsFull
    rw [hblank]
    simp
  exact ⟨h1, h2, by rw [h1], by rw [h1], by rw [h1]⟩

/-- Witness for C6 at a concrete state with a whitespace-only name. -/
theorem C6_blank_name_blocks_generation_witness :
    stBlankW.players.any blankName = true ∧
    handleGenerateTeamsSync rndW cfgW stBlankW
      = { stBlankW with error := some "Please provide names for all players." } :=
  ⟨by decide,
   (C6_blank_name_blocks_generation rndW NamingOutcome.throwsErr cfgW stBlankW (by decide)).1⟩

/-- Claim C9: reset from any state yields the Configuring step with an
empty players list, an empty teams list and the error cleared. -/
theorem C9_reset_returns_to_configuring (st : AppState) :
    (handleReset st).step = Step.config ∧ (handleReset st).players = [] ∧
    (handleReset st).teams = [] ∧ (handleReset st).error = none :=
  ⟨rfl, rfl, rfl, rfl⟩

/-- Claim C7: the Configuring to Naming-Players transition is enabled
exactly when `totalRequired = playersPerTeam * numberOfTeams ≥ 2`, and
taking it allocates exactly `totalRequired` players, each with a blank
name and an id freshly drawn from the id oracle; whenever the oracle
yields pairwise-distinct tokens for the allocated indices (the source
draws random tokens), the session's Player ids are pairwise distinct. -/
theorem C7_start_naming_allocation (idGen : Nat → String)
    (cfg : GeneratorConfig) (st : AppState) :
    (proceedToNamesEnabled cfg = true ↔ 2 ≤ totalRequired cfg) ∧
    (handleStartNaming idGen cfg st).players.length = totalRequired cfg ∧
    (∀ i, i < totalRequired cfg →
      (handleStartNaming idGen cfg st).players[i]? = some { id := idGen i, name := "" }) ∧
    (handleStartNaming idGen cfg st).step = Step.players ∧
    ((∀ i, i < totalRequired cfg → ∀ j, j < totalRequired cfg → idGen i = idGen j → i = j) →
      ((handleStartNaming idGen cfg st).players.map Player.id).Nodup) := by
  refine ⟨?_, ?_, ?_, rfl, ?_⟩
  · simp [proceedToNamesEnabled, Nat.not_lt]
  · simp [handleStartNaming]
  · intro i hi
    show ((List.range (totalRequired cfg)).map
        (fun i => ({ id := idGen i, name := "" } : Player)))[i]? = _
    rw [List.getElem?_map, List.getElem?_range hi]
    rfl
  · intro hinj
    have hmap : ((handleStartNaming idGen cfg st).players.map Player.id)
        = (List.range (totalRequired cfg)).map idGen := by
      show ((List.range (totalRequired cfg)).map
          (fun i => ({ id := idGen i, name := "" } : Player))).map Player.id = _
      rw [List.map_map]
      rfl
    rw [hmap]
    exact List.Nodup.map_on
      (fun x hx y hy h => hinj x (List.mem_range.mp hx) y (List.mem_range.mp hy) h)
      (List.nodup_range _)

/-- `assignNames` never changes the number of slots. -/
theorem assignNames_length : ∀ (ps : List Player) (ns : List String),
    (assignNames ps ns).length = ps.length := by
  intro ps
  induction ps with
  | nil => intro ns; cases ns <;> rfl
  | cons p ps ih =>
    intro ns
    cases ns with
    | nil => rfl
    | cons n ns =>
      show (assignNames ps ns).length + 1 = ps.length + 1
      rw [ih ns]

/-- `assignNames` never changes a slot's id. -/
theorem assignNames_id : ∀ (ps : List Player) (ns : List String) (i : Nat),
    ((assignNames ps ns)[i]?).map Player.id = (ps[i]?).map Player.id := by
  intro ps
  induction ps with
  | nil => intro ns i; cases ns <;> rfl
  | cons p ps ih =>
    intro ns i
    cases ns with
    | nil => rfl
    | cons n ns =>
      cases i with
      | zero => simp [assignNames]
      | succ i => simpa [assignNames] using ih ns i

/-- Within the imported range, slot `i` receives the `i`-th name. -/
theorem assignNames_name_lt : ∀ (ps : List Player) (ns : List String) (i : Nat),
    i < ps.length → i < ns.length →
    ((assignNames ps ns)[i]?).map Player.name = ns[i]? := by
  intro ps
  induction ps with
  | nil => intro ns i h1 _; exact absurd h1 (by simp)
  | cons p ps ih =>
    intro ns i h1 h2
    cases ns with
    | nil => exact absurd h2 (by simp)
    | cons n ns =>
      cases i with
      | zero => simp [assignNames]
      | succ i =>
        simpa [assignNames] using ih ns i (Nat.lt_of_succ_lt_succ h1) (Nat.lt_of_succ_lt_succ h2)

/-- Beyond the imported names, slots are untouched. -/
theorem assignNames_ge : ∀ (ps : List Player) (ns : List String) (i : Nat),
    ns.length ≤ i → (assignNames ps ns)[i]? = ps[i]? := by
  intro ps
  induction ps with
  | nil => intro ns i _; cases ns <;> rfl
  | cons p ps ih =>
    intro ns i h
    cases ns with
    | nil => rfl
    | cons n ns =>
      cases i with
      | zero => exact absurd h (by simp)
      | succ i =>
        simpa [assignNames] using ih ns i (Nat.le_of_succ_le_succ h)

/-- Claim C5: bulk import splits the text on any run of comma, newline,
carriage-return or semicolon characters, trims each token and drops the
empty ones, then assigns the resulting names positionally to the existing
player slots (ids untouched); surplus names are discarded, slots beyond
the imported names keep their blank name, and the informational message
reporting the imported count is surfaced exactly when fewer names than
slots were supplied. -/
theorem C5_bulk_import_positional (cfg : GeneratorConfig) (st : AppState) (text : List Char)
    (hlen : st.players.length = totalRequired cfg)
    (hblank : ∀ p ∈ st.players, p.name = "") :
    (handleCsvUpload cfg st text).players.length = st.players.length ∧
    (∀ i : Nat, ((handleCsvUpload cfg st text).players[i]?).map Player.id
        = (st.players[i]?).map Player.id) ∧
    (∀ i, i < st.players.length →
      ((handleCsvUpload cfg st text).players[i]?).map Player.name
        = some (((parseNames text)[i]?).getD "")) ∧
    (handleCsvUpload cfg st text).step = st.step ∧
    (handleCsvUpload cfg st text).teams = st.teams ∧
    (handleCsvUpload cfg st text).error
      = (if (parseNames text).length < totalRequired cfg then
          some ("Imported " ++ Nat.repr (parseNames text).length
            ++ " names. Filled remaining slots with blanks.")
        else none) := by
  have hplayers : (handleCsvUpload cfg st text).players
      = assignNames st.players (parseNames text) := rfl
  have herr : (handleCsvUpload cfg st text).error
      = (if (parseNames text).length < totalRequired cfg then
          some ("Imported " ++ Nat.repr (parseNames text).length
            ++ " names. Filled remaining slots with blanks.")
        else none) := rfl
  refine ⟨?_, ?_, ?_, rfl, rfl, herr⟩
  · rw [hplayers]
    exact assignNames_length st.players (parseNames text)
  · intro i
    rw [hplayers]
    exact assignNames_id st.players (parseNames text) i
  · intro i hi
    rw [hplayers]
    by_cases hcase : i < (parseNames text).length
    · rw [assignNames_name_lt st.players (parseNames text) i hi hcase]
      cases hv : (parseNames text)[i]? with
      | none =>
        exact absurd (List.getElem?_eq_none_iff.mp hv) (Nat.not_le_of_lt hcase)
      | some v => rfl
    · rw [assignNames_ge st.players (parseNames text) i (Nat.le_of_not_lt hcase),
        List.getElem?_eq_none_iff.mpr (Nat.le_of_not_lt hcase)]
      cases hp : st.players[i]? with
      | none =>
        exact absurd (List.getElem?_eq_none_iff.mp hp) (Nat.not_le_of_lt hi)
      | some p => simp [hblank p (List.getElem?_mem hp)]

/-- Witness for C5: importing "Alice,Bob" into four blank slots fills the
first two slots, leaves the last two blank, and surfaces the message
"Imported 2 names. Filled remaining slots with blanks.". -/
theorem C5_bulk_import_positional_witness :
    (st4W.players.length = totalRequired cfg4W ∧
      (∀ p ∈ st4W.players, p.name = "")) ∧
    (∀ i, i < st4W.players.length →
      ((handleCsvUpload cfg4W st4W ("Alice,Bob".data)).players[i]?).map Player.name
        = some (((parseNames ("Alice,Bob".data))[i]?).getD "")) ∧
    (handleCsvUpload cfg4W st4W ("Alice,Bob".data)).error
      = (if (parseNames ("Alice,Bob".data)).length < totalRequired cfg4W then
          some ("Imported " ++ Nat.repr (parseNames ("Alice,Bob".data)).length
            ++ " names. Filled remaining slots with blanks.")
        else none) :=
  ⟨⟨by decide, by decide⟩,
   (C5_bulk_import_positional cfg4W st4W ("Alice,Bob".data) (by decide) (by decide)).2.2.1,
   (C5_bulk_import_positional cfg4W st4W ("Alice,Bob".data) (by decide) (by decide)).2.2.2.2.2⟩

/-- Witness for C7 at a concrete configuration and id oracle. -/
theorem C7_start_naming_allocation_witness :
    (∀ i, i < totalRequired cfgW → ∀ j, j < totalRequired cfgW →
        idGenW i = idGenW j → i = j) ∧
    ((handleStartNaming idGenW cfgW stW).players.map Player.id).Nodup ∧
    (handleStartNaming idGenW cfgW stW).players.length = totalRequired cfgW :=
  ⟨by decide,
   (C7_start_naming_allocation idGenW cfgW stW).2.2.2.2 (by decide),
   (C7_start_naming_allocation idGenW cfgW stW).2.1⟩

/-- On any failing outcome the identity service returns the fallback
identities (the catch branch). -/
theorem generateTeamIdentities_fail (outcome : NamingOutcome) (teams : List Team)
    (hfail : ∀ ids, outcome ≠ NamingOutcome.parsed ids) :
    generateTeamIdentities outcome teams = fallbackIdentities teams := by
  cases outcome with
  | parsed ids => exact absurd rfl (hfail ids)
  | throwsErr => rfl
  | emptyText => rfl
  | unparsable => rfl

/-- The fallback identity list has one entry per team. -/
theorem fallbackFrom_length : ∀ (ts : List Team) (i0 : Nat),
    (fallbackFrom i0 ts).length = ts.length := by
  intro ts
  induction ts with
  | nil => intro i0; rfl
  | cons t ts ih => intro i0; simp [fallbackFrom, ih]

/-- The fallback identity at index `i`. -/
theorem fallbackFrom_get : ∀ (ts : List Team) (i0 i : Nat), i < ts.length →
    (fallbackFrom i0 ts)[i]?
      = some { name := "Squad " ++ Nat.repr (i0 + i + 1), slogan := "Ready for action!" } := by
  intro ts
  induction ts with
  | nil => intro i0 i h; exact absurd h (by simp)
  | cons t ts ih =>
    intro i0 i h
    cases i with
    | zero => simp [fallbackFrom]
    | succ i =>
      have heq : i0 + (i + 1) + 1 = (i0 + 1) + i + 1 := by omega
      rw [heq]
      simpa [fallbackFrom] using ih (i0 + 1) i (Nat.lt_of_succ_lt_succ h)

/-- The reconciliation map keeps the number of teams. -/
theorem applyIdentitiesFrom_length (ids : List Identity) : ∀ (ts : List Team) (i0 : Nat),
    (applyIdentitiesFrom ids i0 ts).length = ts.length := by
  intro ts
  induction ts with
  | nil => intro i0; rfl
  | cons t ts ih => intro i0; simp [applyIdentitiesFrom, ih]

/-- The reconciled team at index `i` is the original team patched with the
identity entry at the same index. -/
theorem applyIdentitiesFrom_get (ids : List Identity) : ∀ (ts : List Team) (i0 i : Nat),
    (applyIdentitiesFrom ids i0 ts)[i]?
      = (ts[i]?).map (fun t =>
          { t with
            name := patchField ((ids[i0 + i]?).map Identity.name) t.name,
            slogan := patchField ((ids[i0 + i]?).map Identity.slogan) t.slogan }) := by
  intro ts
  induction ts with
  | nil => intro i0 i; rfl
  | cons t ts ih =>
    intro i0 i
    cases i with
    | zero => simp [applyIdentitiesFrom]
    | succ i =>
      have heq : i0 + (i + 1) = (i0 + 1) + i := by omega
      rw [heq]
      simpa [applyIdentitiesFrom] using ih (i0 + 1) i

/-- A non-empty replacement string is applied by the patch. -/
theorem patchField_some_of_ne (s old : String) (h : s ≠ "") :
    patchField (some s) old = s := by
  simp [patchField, h]

/-- The fallback squad name is never the empty string. -/
theorem squad_name_ne_empty (s : String) : ("Squad " ++ s) ≠ "" := by
  intro h
  have hlen := congrArg String.length h
  rw [String.length_append] at hlen
  have h6 : "Squad ".length = 6 := rfl
  have h0 : "".length = 0 := rfl
  omega

/-- Resolving a failing outcome stamps every team with the squad fallback
name and slogan. -/
theorem resolve_fallback_get (outcome : NamingOutcome) (teams : List Team)
    (hfail : ∀ ids, outcome ≠ NamingOutcome.parsed ids) (i : Nat) (hi : i < teams.length) :
    ((resolveIdentities outcome teams)[i]?).map Team.name
        = some ("Squad " ++ Nat.repr (i + 1)) ∧
    ((resolveIdentities outcome teams)[i]?).map Team.slogan = some "Ready for action!" := by
  unfold resolveIdentities
  rw [generateTeamIdentities_fail outcome teams hfail]
  unfold applyIdentities
  rw [applyIdentitiesFrom_get]
  cases ht : teams[i]? with
  | none => exact absurd (List.getElem?_eq_none_iff.mp ht) (Nat.not_le_of_lt hi)
  | some t =>
    have hfb : (fallbackIdentities teams)[0 + i]?
        = some { name := "Squad " ++ Nat.repr (i + 1), slogan := "Ready for action!" } := by
      rw [Nat.zero_add]
      simpa [fallbackIdentities] using fallbackFrom_get teams 0 i hi
    rw [hfb]
    constructor
    · show some (patchField (some ("Squad " ++ Nat.repr (i + 1))) t.name) = _
      rw [patchField_some_of_ne _ _ (squad_name_ne_empty _)]
    · show some (patchField (some "Ready for action!") t.slogan) = _
      rw [patchField_some_of_ne _ _ (by decide)]

/-- Claim C3: on any failure of the identity-naming collaborator (the
request throws, the response text is empty, or the response is
unparsable), `generateTeamIdentities` never throws and returns, for each
team index `i`, the fallback identity "Squad {i+1}" / "Ready for
action!"; the resolution stamps these onto every team and the completed
generation reports no error (it is not surfaced as failed). -/
theorem C3_naming_failure_falls_back (outcome : NamingOutcome) (teams : List Team)
    (hfail : ∀ ids, outcome ≠ NamingOutcome.parsed ids) :
    generateTeamIdentities outcome teams = fallbackIdentities teams ∧
    (resolveIdentities outcome teams).length = teams.length ∧
    (∀ i, i < teams.length →
      ((resolveIdentities outcome teams)[i]?).map Team.name
          = some ("Squad " ++ Nat.repr (i + 1)) ∧
      ((resolveIdentities outcome teams)[i]?).map Team.slogan
          = some "Ready for action!") ∧
    (∀ (rnd : Nat → Nat) (cfg : GeneratorConfig) (st : AppState),
      st.players.any blankName = false →
      (handleGenerateTeamsFull rnd outcome cfg st).error = none ∧
      (handleGenerateTeamsFull rnd outcome cfg st).step = Step.results ∧
      (handleGenerateTeamsFull rnd outcome cfg st).isGenerating = false) := by
  refine ⟨generateTeamIdentities_fail outcome teams hfail, ?_,
    fun i hi => resolve_fallback_get outcome teams hfail i hi, ?_⟩
  · unfold resolveIdentities applyIdentities
    rw [applyIdentitiesFrom_length]
  · intro rnd cfg st hnb
    have h : handleGenerateTeamsFull rnd outcome cfg st
        = { st with
            error := none,
            isGenerating := false,
            teams := resolveIdentities outcome
              (buildTeams (aggressiveShuffle rnd st.players 10) cfg),
            step := Step.results } := by
      unfold handleGenerateTeamsFull
      rw [hnb]
      simp
    exact ⟨by rw [h], by rw [h], by rw [h]⟩

/-- Witness for C3: a thrown naming request over a 3-team generation ends
with Squad 1..3 identities, and the completed flow reports no error. -/
theorem C3_naming_failure_falls_back_witness :
    (∀ ids, NamingOutcome.throwsErr ≠ NamingOutcome.parsed ids) ∧
    (∀ i, i < teams3W.length →
      ((resolveIdentities NamingOutcome.throwsErr teams3W)[i]?).map Team.name
          = some ("Squad " ++ Nat.repr (i + 1)) ∧
      ((resolveIdentities NamingOutcome.throwsErr teams3W)[i]?).map Team.slogan
          = some "Ready for action!") ∧
    (stW.players.any blankName = false ∧
      (handleGenerateTeamsFull rndW NamingOutcome.throwsErr cfgW stW).error = none) :=
  ⟨fun ids h => NamingOutcome.noConfusion h,
   (C3_naming_failure_falls_back NamingOutcome.throwsErr teams3W
      (fun ids h => NamingOutcome.noConfusion h)).2.2.1,
   by decide,
   ((C3_naming_failure_falls_back NamingOutcome.throwsErr teams3W
      (fun ids h => NamingOutcome.noConfusion h)).2.2.2 rndW cfgW stW (by decide)).1⟩

/-- Claim C10: when the identity entry for team index `i` is present but
its name (respectively slogan) is the empty string, the patch keeps the
team's existing name (respectively slogan): the patch falls back on any
falsy field value, not only on a missing index. -/
theorem C10_empty_identity_field_keeps_placeholder (ids : List Identity)
    (teams : List Team) (i : Nat) :
    (((ids[i]?).map Identity.name = some "") →
      ((applyIdentities ids teams)[i]?).map Team.name = (teams[i]?).map Team.name) ∧
    (((ids[i]?).map Identity.slogan = some "") →
      ((applyIdentities ids teams)[i]?).map Team.slogan = (teams[i]?).map Team.slogan) := by
  unfold applyIdentities
  rw [applyIdentitiesFrom_get]
  simp only [Nat.zero_add]
  constructor
  · intro hname
    cases ht : teams[i]? with
    | none => rfl
    | some t => simp [hname, patchField]
  · intro hslogan
    cases ht : teams[i]? with
    | none => rfl
    | some t => simp [hslogan, patchField]

/-- Witness for C10 at a concrete empty-field identity response. -/
theorem C10_empty_identity_field_keeps_placeholder_witness :
    ((idsEmptyW[0]?).map Identity.name = some "" ∧
      ((applyIdentities idsEmptyW teamsPatchW)[0]?).map Team.name
        = (teamsPatchW[0]?).map Team.name) ∧
    ((idsEmptyW[0]?).map Identity.slogan = some "" ∧
      ((applyIdentities idsEmptyW teamsPatchW)[0]?).map Team.slogan
        = (teamsPatchW[0]?).map Team.slogan) :=
  ⟨⟨by decide,
    (C10_empty_identity_field_keeps_placeholder idsEmptyW teamsPatchW 0).1 (by decide)⟩,
   ⟨by decide,
    (C10_empty_identity_field_keeps_placeholder idsEmptyW teamsPatchW 0).2 (by decide)⟩⟩

/-- Claim C4 is false of the code: there is a state with an outstanding
request issued against an earlier team list whose resolution does change
the current teams.  Concretely, after a generation and then a reshuffle
with both identity requests still outstanding, resolving the first
(stale) request overwrites the second generation's placeholder name. -/
theorem C4_counterexample_stale_overwrites_current : ¬ staleResponseNeverOverwrites := by
  intro h
  have h1 := h raceState { issuedTeams := [teamA], resp := respStale }
      [{ issuedTeams := [teamB], resp := respFresh }] (by decide) (by decide)
  exact absurd h1 (by decide)

/-- Claim C4 amended: the resolution of an outstanding identity request
patches, by index, whatever team list is current at resolution time —
not the team list that existed when the request was issued — so a
Reshuffle or Reset racing a pending request lets the stale response
overwrite the current generation's names and slogans. -/
theorem C4_amended_resolution_patches_current_teams (s : GenSystem) (q : PendingReq)
    (rest : List PendingReq) (h : s.pending = q :: rest) :
    (runAction s SysAction.resolveNext).teams = applyIdentities q.resp s.teams ∧
    (runAction s SysAction.resolveNext).pending = rest := by
  unfold runAction
  rw [h]
  exact ⟨rfl, rfl⟩

/-- Witness for the amended C4 at the concrete race. -/
theorem C4_amended_resolution_patches_current_teams_witness :
    raceState.pending
      = ({ issuedTeams := [teamA], resp := respStale } : PendingReq)
        :: [{ issuedTeams := [teamB], resp := respFresh }] ∧
    (runAction raceState SysAction.resolveNext).teams
      = applyIdentities respStale raceState.teams :=
  ⟨by decide,
   (C4_amended_resolution_patches_current_teams raceState
      { issuedTeams := [teamA], resp := respStale }
      [{ issuedTeams := [teamB], resp := respFresh }] (by decide)).1⟩

end Nexus
